import Mathlib

/-!
# mono3d_indoor_detection: data model, parser defaults and image publisher

A shallow embedding of `include/centernet_3d_output_parser.h` and
`src/image_publisher.cpp`, followed by the theorems that settle the
properties stated about them.

Conventions of the embedding:

* a C++ `float` value is modelled by the rational number it denotes
  (`CFloat`); only constants that binary32 represents exactly (0, 1, 0.5) take
  part in the theorems about constants;
* `std::vector` is `List`, `std::string` is `String`;
* 32-bit and 16-bit machine integers are `Nat`/`Int` with explicit wrapping
  functions; the 64-bit nanosecond counts of `std::chrono` are plain integers,
  differences of readings of one clock staying far inside that range;
* members that a constructor leaves uninitialised are passed in as arguments.
-/

namespace Mono3D

/-! ## Machine arithmetic -/

/-- The rational value denoted by a C++ `float`. -/
abbrev CFloat := ℚ

/-- Conversion of an integer value to `uint16_t` (reduction modulo 2^16). -/
def toUInt16 (x : Int) : Nat := (x % 65536).toNat

/-- Conversion of an integer value to `uint32_t` (reduction modulo 2^32). -/
def toUInt32 (x : Int) : Nat := (x % 4294967296).toNat

/-- Conversion of an integer value to a 64-bit `size_t`. -/
def toSizeT (x : Int) : Nat := (x % 18446744073709551616).toNat

/-- The largest value of a 32-bit `int`. -/
def INT_MAX : Int := 2147483647

/-- The smallest value of a 32-bit `int`. -/
def INT_MIN : Int := -2147483648

/-- Two's-complement wrapping of a mathematical integer into 32-bit `int`. -/
def wrapInt32 (x : Int) : Int := (x + 2147483648) % 4294967296 - 2147483648

/-- The `int` product, wrapped. -/
def mulInt32 (a b : Int) : Int := wrapInt32 (a * b)

/-- The `int` quotient: C++ division truncates toward zero. -/
def divInt32 (a b : Int) : Int := wrapInt32 (Int.tdiv a b)

/-- The call `v.resize(n, value)` of `std::vector`. -/
def vector_resize {α : Type} (v : List α) (n : Nat) (value : α) : List α :=
  v.take n ++ List.replicate (n - v.length) value

/-- The value-initialised vector `std::vector<float>(n)`. -/
def vector_float (n : Nat) : List CFloat := List.replicate n 0

/-! ## `centernet_3d_output_parser.h`: boxes -/

/-- The struct `BBox`, with its default member initialisers. -/
structure BBox where
  x1 : CFloat := 0
  y1 : CFloat := 0
  x2 : CFloat := 0
  y2 : CFloat := 0
  score : CFloat := 0
  id : Int := 0
  rotation_angle : CFloat := 0
  category_name : String := ""
  deriving DecidableEq, Repr

/-- The seven-argument constructor of `BBox`. -/
def BBox.ctor (x1_ y1_ x2_ y2_ : CFloat) (score_ : CFloat) (id_ : Int)
    (category_name_ : String) : BBox :=
  { x1 := x1_, y1 := y1_, x2 := x2_, y2 := y2_, id := id_, score := score_,
    category_name := category_name_ }

/-- The method `BBox::Width`. -/
def BBox.Width (b : BBox) : CFloat := b.x2 - b.x1

/-- The method `BBox::Height`. -/
def BBox.Height (b : BBox) : CFloat := b.y2 - b.y1

/-- The method `BBox::CenterX`. -/
def BBox.CenterX (b : BBox) : CFloat := b.x1 + (b.x2 - b.x1) / 2

/-- The method `BBox::CenterY`. -/
def BBox.CenterY (b : BBox) : CFloat := b.y1 + (b.y2 - b.y1) / 2

/-- The struct `BBox2D`; `score` is an `int32_t`, `cls` and `idx` are `uint32_t`. -/
structure BBox2D where
  x1 : CFloat
  y1 : CFloat
  x2 : CFloat
  y2 : CFloat
  score : Int
  cls : Nat
  idx : Nat
  deriving DecidableEq, Repr

/-- The comparator `BBox2D::greater`. -/
def BBox2D.greater (a b : BBox2D) : Bool := decide (a.score > b.score)

/-- The macro `BBOX3D_CORNER_SIZE`. -/
def BBOX3D_CORNER_SIZE : Nat := 8

/-- The struct `BBox3D`. -/
structure BBox3D where
  grid_idx : Nat
  grid_x : Nat
  grid_y : Nat
  x : CFloat
  y : CFloat
  z : CFloat
  w : CFloat
  l : CFloat
  h : CFloat
  d : CFloat
  r : CFloat
  corners2d : List (List CFloat)
  corners2d_upscale : List (List CFloat)
  corners3d : List (List CFloat)
  score : CFloat
  class_label : Nat
  deriving DecidableEq, Repr

/-- The scalar members of `BBox3D` that its constructor does not initialise:
a fresh box holds indeterminate values there. -/
structure BBox3DScalars where
  grid_idx : Nat
  grid_x : Nat
  grid_y : Nat
  x : CFloat
  y : CFloat
  z : CFloat
  w : CFloat
  l : CFloat
  h : CFloat
  d : CFloat
  r : CFloat
  score : CFloat
  class_label : Nat
  deriving DecidableEq, Repr

/-- The constructor `BBox3D::BBox3D()`: the three vectors start empty and are
resized to `BBOX3D_CORNER_SIZE` rows. -/
def BBox3D.ctor (u : BBox3DScalars) : BBox3D :=
  { grid_idx := u.grid_idx, grid_x := u.grid_x, grid_y := u.grid_y,
    x := u.x, y := u.y, z := u.z, w := u.w, l := u.l, h := u.h, d := u.d, r := u.r,
    corners2d := vector_resize [] BBOX3D_CORNER_SIZE (vector_float 2),
    corners2d_upscale := vector_resize [] BBOX3D_CORNER_SIZE (vector_float 2),
    corners3d := vector_resize [] BBOX3D_CORNER_SIZE (vector_float 3),
    score := u.score, class_label := u.class_label }

/-- The class `CenterNet3DDetResult`. -/
structure CenterNet3DDetResult where
  boxes : List BBox3D
  deriving DecidableEq, Repr

/-- The method `CenterNet3DDetResult::Reset`. -/
def CenterNet3DDetResult.Reset (_self : CenterNet3DDetResult) : CenterNet3DDetResult :=
  { boxes := [] }

/-! ## `centernet_3d_output_parser.h`: the parser's state -/

/-- The default member initialiser of `kCalibMatrix_`. The literals are the
source's; the stored `float` is the binary32 nearest to each, which leaves the
entries 0.0 and 1.0 unchanged. -/
def kCalibMatrix_init : List (List CFloat) :=
  [[746.2463540682126, 0.0, 971.6589299894808, 0.0],
   [0.0, 750.2202098997767, 514.5994408429885, 0.0],
   [0.0, 0.0, 1.0, 0.0]]

/-- The default member initialiser of `pool_pad_`, `(pool_kernel_ - 1) / 2`:
the `uint16_t` operand is promoted to `int`, the quotient truncates, and the
result is converted back to `uint16_t`. -/
def pool_pad_init (pool_kernel_ : Nat) : Nat :=
  toUInt16 (Int.tdiv ((pool_kernel_ : Int) - 1) 2)

/-- The same padding formula read as unsigned 16-bit arithmetic throughout
(subtraction modulo 2^16, then halving). -/
def pool_pad_uint16 (pool_kernel_ : Nat) : Nat :=
  ((pool_kernel_ + 65536 - 1) % 65536) / 2

/-- The data members of `CenterNet3DOutputParser`. -/
structure CenterNet3DOutputParser where
  output_shifts_ : List (List Nat)
  channel_size_ : List Int
  aligned_channel_size_ : List Int
  aligned_width_size_ : List Int
  kCalibMatrix_ : List (List CFloat)
  yaml_file_ : String
  is_parameter_init_ : Bool
  model_output_height_ : Int
  model_output_width_ : Int
  model_input_height_ : Int
  model_input_width_ : Int
  use_multibin_ : Bool
  pool_height_ : Nat
  pool_width_ : Nat
  pool_stride_ : Nat
  pool_kernel_ : Nat
  pool_pad_ : Nat
  nms_size_ : Nat
  model_focal_length_ : CFloat
  cam_focal_length_ : CFloat
  focal_length_scale_ : CFloat
  down_ratio_ : CFloat
  output_scale_ : CFloat
  image_shift_ : CFloat
  box_score_init_ : List CFloat
  box_score_thres_ : List CFloat
  box_score_th_ : CFloat
  box_log_score_th_ : CFloat
  iou_th_ : CFloat
  beviou_th_ : CFloat
  deriving DecidableEq, Repr

/-- The members of the parser without a default member initialiser, which the
constructor leaves indeterminate. -/
structure ParserScalars where
  model_output_height_ : Int
  model_output_width_ : Int
  pool_height_ : Nat
  pool_width_ : Nat
  focal_length_scale_ : CFloat
  down_ratio_ : CFloat
  output_scale_ : CFloat
  box_log_score_th_ : CFloat
  deriving DecidableEq, Repr

/-- The constructor `CenterNet3DOutputParser(config_file)`: every default
member initialiser is applied in declaration order, then the body sets
`yaml_file_`. -/
def CenterNet3DOutputParser.ctor (config_file : String) (u : ParserScalars) :
    CenterNet3DOutputParser :=
  let pool_stride_ : Nat := 1
  let pool_kernel_ : Nat := 3
  let model_focal_length_ : CFloat := 740.38
  { output_shifts_ := [],
    channel_size_ := [],
    aligned_channel_size_ := [],
    aligned_width_size_ := [],
    kCalibMatrix_ := kCalibMatrix_init,
    yaml_file_ := config_file ++ "/centernet.yaml",
    is_parameter_init_ := false,
    model_output_height_ := u.model_output_height_,
    model_output_width_ := u.model_output_width_,
    model_input_height_ := 512,
    model_input_width_ := 960,
    use_multibin_ := false,
    pool_height_ := u.pool_height_,
    pool_width_ := u.pool_width_,
    pool_stride_ := pool_stride_,
    pool_kernel_ := pool_kernel_,
    pool_pad_ := pool_pad_init pool_kernel_,
    nms_size_ := 100,
    model_focal_length_ := model_focal_length_,
    cam_focal_length_ := model_focal_length_,
    focal_length_scale_ := u.focal_length_scale_,
    down_ratio_ := u.down_ratio_,
    output_scale_ := u.output_scale_,
    image_shift_ := 24,
    box_score_init_ := [],
    box_score_thres_ := [],
    box_score_th_ := 0.5,
    box_log_score_th_ := u.box_log_score_th_,
    iou_th_ := 0.5,
    beviou_th_ := 0.5 }

/-- The dot product of a matrix row with a vector. -/
def dot : List CFloat → List CFloat → CFloat
  | a :: as, b :: bs => a * b + dot as bs
  | _, _ => 0

/-- Modelled from the spec: the body of `ProjectToImage` is not in the source;
this is the homogeneous multiply of section 4.4, the product of the
calibration matrix with the column `(x, y, z, 1)`, one entry per matrix row. -/
def homogeneousProduct (K : List (List CFloat)) (x y z : CFloat) : List CFloat :=
  K.map (fun row => dot row [x, y, z, 1])

/-! ## Candidate ordering and image-plane suppression

`Parse2DBox`, `PostProcess` and `Nms2D` are declared in the header but their
bodies are not part of the source; the definitions of this section follow the
specification's description of them. -/

/-- Modelled from the spec: the sort that applies a candidate comparator is not
in the source; this is one insertion step of the sort of section 4.6, "sort
candidates by score descending (stable tie-break by original index)": the new
element passes every strictly greater element and stops before the first one
that is not. -/
def insertDescending {α : Type} (gt : α → α → Bool) (a : α) : List α → List α
  | [] => [a]
  | b :: l => if gt b a then b :: insertDescending gt a l else a :: b :: l

/-- Modelled from the spec: the sort that applies a candidate comparator is not
in the source; this is the stable descending sort of section 4.6, by the
strict comparator `gt`. -/
def stableSortDescending {α : Type} (gt : α → α → Bool) (l : List α) : List α :=
  l.foldr (insertDescending gt) []

/-- The area of a box, from `BBox::Width` and `BBox::Height`. -/
def BBox.area (b : BBox) : CFloat := b.Width * b.Height

/-- Modelled from the spec: the overlap measure of `Nms2D` is not in the source;
this is the "standard intersection-over-union of the axis-aligned standup
boxes" of section 4.6, with "degenerate zero-area boxes ... treated as IoU=0 by
convention" (section 8). -/
def iou (a b : BBox) : CFloat :=
  let w := max 0 (min a.x2 b.x2 - max a.x1 b.x1)
  let h := max 0 (min a.y2 b.y2 - max a.y1 b.y1)
  let inter := w * h
  if a.area = 0 ∨ b.area = 0 then 0 else inter / (a.area + b.area - inter)

/-- Modelled from the spec: the body of `Nms2D` is not in the source; this is
one step of the greedy pass of section 4.6: "a candidate is kept iff its
overlap with every previously-kept candidate is below a threshold". -/
def nmsStep (iou_th_ : CFloat) (kept : List BBox) (c : BBox) : List BBox :=
  if kept.all (fun k => decide (iou c k < iou_th_)) then kept ++ [c] else kept

/-- Modelled from the spec: the body of `Nms2D` is not in the source; this is
the greedy pass of section 4.6 over candidates already in score order, which
returns the kept boxes in the order they were kept. -/
def nmsGreedy (iou_th_ : CFloat) (candidates : List BBox) : List BBox :=
  candidates.foldl (nmsStep iou_th_) []

/-- The strict score comparison used to order `BBox` candidates. -/
def BBox.greater (a b : BBox) : Bool := decide (a.score > b.score)

/-- Modelled from the spec: the body of `Nms2D` is not in the source; following
section 4.6 it sorts the standup boxes by score descending, runs the greedy
pass with the parser's threshold `iou_th_`, and with `suppress = false` passes
the input through. The result is the list of surviving standup boxes. -/
def CenterNet3DOutputParser.Nms2D (self : CenterNet3DOutputParser) (bboxes : List BBox)
    (suppress : Bool) : List BBox :=
  if suppress then nmsGreedy self.iou_th_ (stableSortDescending BBox.greater bboxes)
  else bboxes

/-! ## `image_publisher.cpp` -/

/-- The fields of `struct dirent` that `load_images` reads. -/
structure dirent where
  d_name : String
  d_type : Nat
  deriving DecidableEq, Repr

/-- The `while ((ptr = readdir(dir)) != nullptr)` loop of `load_images`, over
the entries that `readdir` still has to return. -/
def load_images_loop (image_directory : String) : List dirent → List String → List String
  | [], images => images
  | ptr :: rest, images =>
    if ptr.d_name = "." ∨ ptr.d_name = ".." then
      load_images_loop image_directory rest images
    else if ptr.d_type = 8 then
      load_images_loop image_directory rest (images ++ [image_directory ++ ptr.d_name])
    else if ptr.d_type = 10 ∨ ptr.d_type = 4 then
      load_images_loop image_directory rest images
    else
      load_images_loop image_directory rest images

/-- The function `load_images`; `dir` is the outcome of `opendir`: `none` when
the directory cannot be opened, else the entries `readdir` returns in order. -/
def load_images (image_directory : String) (dir : Option (List dirent))
    (images : List String) : List String :=
  match dir with
  | none => images
  | some entries => load_images_loop image_directory entries images

/-- The members of `cv::Mat` that `create_image` reads; `data` is the byte
buffer. -/
structure Mat where
  rows : Int
  cols : Int
  data : List Nat
  deriving DecidableEq, Repr

/-- The message header `std_msgs::msg::Header`; the stamp is in nanoseconds. -/
structure Header where
  stamp : Int
  frame_id : String
  deriving DecidableEq, Repr

/-- The message `sensor_msgs::msg::Image`. -/
structure Image where
  header : Header
  height : Nat
  width : Nat
  encoding : String
  is_bigendian : Nat
  step : Nat
  data : List Nat
  deriving DecidableEq, Repr

/-- A default-constructed `sensor_msgs::msg::Image`. -/
def Image.default : Image :=
  { header := { stamp := 0, frame_id := "" }, height := 0, width := 0, encoding := "",
    is_bigendian := 0, step := 0, data := [] }

/-- The call `std::memcpy(dst.data(), src, n)` into a vector `dst` of `n`
bytes. -/
def memcpy (dst src : List Nat) (n : Nat) : List Nat :=
  (List.range dst.length).map (fun i => if i < n then src.getD i 0 else dst.getD i 0)

/-- The function `create_image`; `nv_12` is the matrix that `imread` followed by
`BGRToNv12` produced for the file, `now` the reading of `rclcpp::Clock`. -/
def create_image (image : String) (nv_12 : Mat) (now : Int) : Image :=
  let out_img := Image.default
  let out_img := { out_img with encoding := "nv12" }
  let out_img := { out_img with width := toUInt32 nv_12.cols }
  let out_img := { out_img with height := toUInt32 (divInt32 (mulInt32 nv_12.rows 2) 3) }
  let image_size : Int := mulInt32 nv_12.cols nv_12.rows
  let out_img := { out_img with data := vector_resize out_img.data (toSizeT image_size) 0 }
  let out_img := { out_img with data := memcpy out_img.data nv_12.data (toSizeT image_size) }
  let out_img := { out_img with header := { out_img.header with frame_id := image } }
  let out_img := { out_img with header := { out_img.header with stamp := now } }
  out_img

/-- The conversion `duration_cast<milliseconds>(d).count()` of a duration of
`d` nanoseconds (the tick of `high_resolution_clock`): truncation toward zero. -/
def duration_cast_ms (d : Int) : Int := Int.tdiv d 1000000

/-- What one iteration of the loop of `pub_images` reads from its
environment: the matrix and stamp used by `create_image`, the clock reading
`now_check` inside the computation of `duration_ms`, and the clock reading
`now_pub` assigned to `last_pub`. -/
structure IterEnv where
  nv_12 : Mat
  stamp : Int
  now_check : Int
  now_pub : Int
  deriving DecidableEq, Repr

/-- The observable actions of `pub_images`. -/
inductive PubEvent where
  | sleep_for (ms : Int)
  | publish (out_img : Image)
  deriving DecidableEq, Repr

/-- The `if (duration_ms < 33)` statement of `pub_images`: the sleep it
requests, if any, for the clock readings `last_pub` and `now`. -/
def sleep_request (last_pub now : Int) : Option Int :=
  let duration_ms := duration_cast_ms (last_pub - now)
  if duration_ms < 33 then some (33 - duration_ms) else none

/-- The `for (const auto &image : images)` loop of `pub_images`, from iteration
number `i` on, as the sequence of actions it performs. -/
def pub_loop (env : Nat → IterEnv) : Nat → Int → List String → List PubEvent
  | _, _, [] => []
  | i, last_pub, image :: rest =>
    let out_img := create_image image (env i).nv_12 (env i).stamp
    let sleeps :=
      match sleep_request last_pub (env i).now_check with
      | some ms => [PubEvent.sleep_for ms]
      | none => []
    let last_pub := (env i).now_pub
    sleeps ++ [PubEvent.publish out_img] ++ pub_loop env (i + 1) last_pub rest

/-- The function `pub_images`: `dir` is the outcome of `opendir`, `start` the
first clock reading. -/
def pub_images (image_directory : String) (dir : Option (List dirent)) (start : Int)
    (env : Nat → IterEnv) : List PubEvent :=
  let images := load_images image_directory dir []
  pub_loop env 0 start images

/-- The clock reading held in `last_pub` when iteration `i` starts. -/
def last_pub_at (start : Int) (env : Nat → IterEnv) (i : Nat) : Int :=
  match i with
  | 0 => start
  | k + 1 => (env k).now_pub

/-- The clock never goes backwards over a run of `pub_images`. -/
def MonotoneClock (start : Int) (env : Nat → IterEnv) : Prop :=
  ∀ i, last_pub_at start env i ≤ (env i).now_check ∧ (env i).now_check ≤ (env i).now_pub

/-! ## Theorems: boxes and parser defaults -/

/-- C1: every freshly constructed `BBox3D` has `corners2d` and
`corners2d_upscale` of exactly 8 rows with exactly 2 components each and
`corners3d` of exactly 8 rows with exactly 3 components each, and every
component is zero. -/
theorem bbox3d_fresh_corners_shape (u : BBox3DScalars) :
    ((BBox3D.ctor u).corners2d.length = 8 ∧
      ∀ row ∈ (BBox3D.ctor u).corners2d, row.length = 2 ∧ ∀ c ∈ row, c = 0) ∧
    ((BBox3D.ctor u).corners2d_upscale.length = 8 ∧
      ∀ row ∈ (BBox3D.ctor u).corners2d_upscale, row.length = 2 ∧ ∀ c ∈ row, c = 0) ∧
    ((BBox3D.ctor u).corners3d.length = 8 ∧
      ∀ row ∈ (BBox3D.ctor u).corners3d, row.length = 3 ∧ ∀ c ∈ row, c = 0) := by
  refine ⟨⟨?_, ?_⟩, ⟨?_, ?_⟩, ⟨?_, ?_⟩⟩
  all_goals simp [BBox3D.ctor, vector_resize, vector_float, BBOX3D_CORNER_SIZE]

/-- C3: for every result container, whatever boxes it holds, `Reset` leaves the
boxes sequence empty, and `Reset` after `Reset` equals one `Reset`. -/
theorem reset_clears_and_idempotent (res : CenterNet3DDetResult) :
    res.Reset.boxes = [] ∧ res.Reset.Reset = res.Reset := by
  exact ⟨rfl, rfl⟩

/-- C4: the calibration matrix of a constructed parser has exactly 3 rows of
exactly 4 entries, its fourth column is zero, its third row is (0, 0, 1, 0),
and for every point (x, y, z) the third component of K * (x, y, z, 1) is z. -/
theorem calib_matrix_shape_and_divisor (config_file : String) (u : ParserScalars) :
    (CenterNet3DOutputParser.ctor config_file u).kCalibMatrix_.length = 3 ∧
    (∀ row ∈ (CenterNet3DOutputParser.ctor config_file u).kCalibMatrix_, row.length = 4) ∧
    (∀ row ∈ (CenterNet3DOutputParser.ctor config_file u).kCalibMatrix_, row[3]? = some 0) ∧
    (CenterNet3DOutputParser.ctor config_file u).kCalibMatrix_[2]? = some [0, 0, 1, 0] ∧
    ∀ x y z : CFloat,
      (homogeneousProduct (CenterNet3DOutputParser.ctor config_file u).kCalibMatrix_ x y z).length
          = 3 ∧
      (homogeneousProduct (CenterNet3DOutputParser.ctor config_file u).kCalibMatrix_ x y z)[2]?
          = some z := by
  refine ⟨?_, ?_, ?_, ?_, ?_⟩
  · simp [CenterNet3DOutputParser.ctor, kCalibMatrix_init]
  · simp [CenterNet3DOutputParser.ctor, kCalibMatrix_init]
  · simp [CenterNet3DOutputParser.ctor, kCalibMatrix_init]
    norm_num
  · simp [CenterNet3DOutputParser.ctor, kCalibMatrix_init]
    norm_num
  · intro x y z
    simp [CenterNet3DOutputParser.ctor, kCalibMatrix_init, homogeneousProduct, dot]
    norm_num

/-- C5: in the parser's default state the pooling kernel is 3, the stride is 1,
and the padding is `(kernel - 1) / 2`, which the source's promoted computation
and unsigned 16-bit arithmetic both evaluate to 1; hence
`2 * pool_pad_ + 1 = pool_kernel_`. -/
theorem pool_geometry_default (config_file : String) (u : ParserScalars) :
    (CenterNet3DOutputParser.ctor config_file u).pool_kernel_ = 3 ∧
    (CenterNet3DOutputParser.ctor config_file u).pool_stride_ = 1 ∧
    (CenterNet3DOutputParser.ctor config_file u).pool_pad_
      = pool_pad_init (CenterNet3DOutputParser.ctor config_file u).pool_kernel_ ∧
    (CenterNet3DOutputParser.ctor config_file u).pool_pad_
      = pool_pad_uint16 (CenterNet3DOutputParser.ctor config_file u).pool_kernel_ ∧
    (CenterNet3DOutputParser.ctor config_file u).pool_pad_ = 1 ∧
    2 * (CenterNet3DOutputParser.ctor config_file u).pool_pad_ + 1
      = (CenterNet3DOutputParser.ctor config_file u).pool_kernel_ := by
  refine ⟨rfl, rfl, rfl, ?_, ?_, ?_⟩ <;> simp only [CenterNet3DOutputParser.ctor] <;> decide

/-- C6: in the parser's default state the candidate cap `nms_size_` is 100 and
both overlap thresholds `iou_th_` and `beviou_th_` are 0.5. -/
theorem nms_defaults (config_file : String) (u : ParserScalars) :
    (CenterNet3DOutputParser.ctor config_file u).nms_size_ = 100 ∧
    (CenterNet3DOutputParser.ctor config_file u).iou_th_ = 0.5 ∧
    (CenterNet3DOutputParser.ctor config_file u).beviou_th_ = 0.5 ∧
    (CenterNet3DOutputParser.ctor config_file u).iou_th_ = 1 / 2 := by
  refine ⟨rfl, rfl, rfl, ?_⟩
  simp only [CenterNet3DOutputParser.ctor]
  norm_num

/-! ## Theorems: the stable descending sort -/

section SortLemmas

variable {α : Type} {β : Type} [LinearOrder β]

theorem insertDescending_perm (gt : α → α → Bool) (a : α) (l : List α) :
    (insertDescending gt a l).Perm (a :: l) := by
  induction l with
  | nil => exact List.Perm.refl _
  | cons b l ih =>
    unfold insertDescending
    split
    · exact ((List.Perm.cons b ih).trans (List.Perm.swap a b l))
    · exact List.Perm.refl _

theorem stableSortDescending_perm (gt : α → α → Bool) (l : List α) :
    (stableSortDescending gt l).Perm l := by
  induction l with
  | nil => exact List.Perm.refl _
  | cons a l ih =>
    show (insertDescending gt a (stableSortDescending gt l)).Perm (a :: l)
    exact (insertDescending_perm gt a _).trans (List.Perm.cons a ih)

theorem insertDescending_pairwise (key : α → β) (gt : α → α → Bool)
    (hgt : ∀ a b, gt a b = true ↔ key b < key a) (a : α) (l : List α)
    (hl : l.Pairwise (fun x y => key y ≤ key x)) :
    (insertDescending gt a l).Pairwise (fun x y => key y ≤ key x) := by
  induction l with
  | nil => simp [insertDescending]
  | cons b l ih =>
    rw [List.pairwise_cons] at hl
    unfold insertDescending
    split
    · rename_i hba
      rw [List.pairwise_cons]
      refine ⟨?_, ih hl.2⟩
      intro x hx
      have hx2 : x ∈ a :: l := (insertDescending_perm gt a l).subset hx
      rcases List.mem_cons.mp hx2 with rfl | hxl
      · exact le_of_lt ((hgt b x).mp hba)
      · exact hl.1 x hxl
    · rename_i hba
      have hle : key b ≤ key a := by
        by_contra hcon
        exact hba ((hgt b a).mpr (lt_of_not_le hcon))
      rw [List.pairwise_cons]
      refine ⟨?_, List.pairwise_cons.mpr hl⟩
      intro x hx
      rcases List.mem_cons.mp hx with rfl | hxl
      · exact hle
      · exact le_trans (hl.1 x hxl) hle

theorem stableSortDescending_pairwise (key : α → β) (gt : α → α → Bool)
    (hgt : ∀ a b, gt a b = true ↔ key b < key a) (l : List α) :
    (stableSortDescending gt l).Pairwise (fun x y => key y ≤ key x) := by
  induction l with
  | nil => exact List.Pairwise.nil
  | cons a l ih => exact insertDescending_pairwise key gt hgt a _ ih

theorem insertDescending_filter (gt : α → α → Bool) (p : α → Bool)
    (hp : ∀ a b, gt b a = true → ¬ (p a = true ∧ p b = true)) (a : α) (l : List α) :
    (insertDescending gt a l).filter p = (a :: l).filter p := by
  induction l with
  | nil => rfl
  | cons b l ih =>
    unfold insertDescending
    split
    · rename_i hba
      have hno := hp a b hba
      rw [List.filter_cons, ih]
      by_cases hb : p b = true
      · have ha : ¬ (p a = true) := fun ha => hno ⟨ha, hb⟩
        simp [List.filter_cons, hb, ha]
      · simp [List.filter_cons, hb]
    · rfl

theorem stableSortDescending_filter (gt : α → α → Bool) (p : α → Bool)
    (hp : ∀ a b, gt b a = true → ¬ (p a = true ∧ p b = true)) (l : List α) :
    (stableSortDescending gt l).filter p = l.filter p := by
  induction l with
  | nil => rfl
  | cons a l ih =>
    show (insertDescending gt a (stableSortDescending gt l)).filter p = (a :: l).filter p
    rw [insertDescending_filter gt p hp, List.filter_cons, List.filter_cons, ih]

theorem insertDescending_ties (key : α → β) (pos : α → Nat) (gt : α → α → Bool)
    (hgt : ∀ a b, gt a b = true ↔ key b < key a) (a : α) (l : List α)
    (ha : ∀ y ∈ l, pos a < pos y)
    (hl : l.Pairwise (fun x y => key x = key y → pos x < pos y)) :
    (insertDescending gt a l).Pairwise (fun x y => key x = key y → pos x < pos y) := by
  induction l with
  | nil => simp [insertDescending]
  | cons b l ih =>
    rw [List.pairwise_cons] at hl
    unfold insertDescending
    split
    · rename_i hba
      rw [List.pairwise_cons]
      refine ⟨?_, ih (fun y hy => ha y (List.mem_cons_of_mem b hy)) hl.2⟩
      intro x hx hkey
      have hx2 : x ∈ a :: l := (insertDescending_perm gt a l).subset hx
      rcases List.mem_cons.mp hx2 with rfl | hxl
      · exact absurd hkey (ne_of_gt ((hgt b x).mp hba))
      · exact hl.1 x hxl hkey
    · rw [List.pairwise_cons]
      exact ⟨fun y hy _ => ha y hy, List.pairwise_cons.mpr hl⟩

theorem stableSortDescending_ties (key : α → β) (pos : α → Nat) (gt : α → α → Bool)
    (hgt : ∀ a b, gt a b = true ↔ key b < key a) (l : List α)
    (hpos : l.Pairwise (fun x y => pos x < pos y)) :
    (stableSortDescending gt l).Pairwise (fun x y => key x = key y → pos x < pos y) := by
  induction l with
  | nil => exact List.Pairwise.nil
  | cons a l ih =>
    rw [List.pairwise_cons] at hpos
    apply insertDescending_ties key pos gt hgt a _ _ (ih hpos.2)
    intro y hy
    exact hpos.1 y ((stableSortDescending_perm gt l).subset hy)

end SortLemmas

/-- C7: `BBox2D::greater a b` holds iff `a.score > b.score`, whatever the other
fields; it is irreflexive, asymmetric and transitive, and incomparability under
it is transitive; every list with no inversion under it has non-increasing
scores; and the stable descending sort by it returns a permutation of its
input with non-increasing scores in which the candidates of each score keep
their original order, so that equal scores come out by increasing `idx` when
the input is in increasing `idx`. -/
theorem greater_orders_by_score_descending :
    (∀ a b : BBox2D, BBox2D.greater a b = true ↔ a.score > b.score) ∧
    (∀ a b c d : BBox2D, a.score = c.score → b.score = d.score →
      BBox2D.greater a b = BBox2D.greater c d) ∧
    (∀ a : BBox2D, BBox2D.greater a a = false) ∧
    (∀ a b : BBox2D, BBox2D.greater a b = true → BBox2D.greater b a = false) ∧
    (∀ a b c : BBox2D, BBox2D.greater a b = true → BBox2D.greater b c = true →
      BBox2D.greater a c = true) ∧
    (∀ a b c : BBox2D,
      (BBox2D.greater a b = false ∧ BBox2D.greater b a = false) →
      (BBox2D.greater b c = false ∧ BBox2D.greater c b = false) →
      (BBox2D.greater a c = false ∧ BBox2D.greater c a = false)) ∧
    (∀ l : List BBox2D, l.Pairwise (fun x y => BBox2D.greater y x = false) →
      l.Pairwise (fun x y => x.score ≥ y.score)) ∧
    (∀ l : List BBox2D,
      (stableSortDescending BBox2D.greater l).Perm l ∧
      (stableSortDescending BBox2D.greater l).Pairwise
        (fun x y => BBox2D.greater y x = false) ∧
      (stableSortDescending BBox2D.greater l).Pairwise (fun x y => x.score ≥ y.score) ∧
      (∀ s : Int,
        (stableSortDescending BBox2D.greater l).filter (fun x => decide (x.score = s))
          = l.filter (fun x => decide (x.score = s))) ∧
      (l.Pairwise (fun x y => x.idx < y.idx) →
        (stableSortDescending BBox2D.greater l).Pairwise
          (fun x y => x.score = y.score → x.idx < y.idx))) := by
  have hiff : ∀ a b : BBox2D, BBox2D.greater a b = true ↔ b.score < a.score := by
    intro a b
    simp [BBox2D.greater]
  have hfalse : ∀ a b : BBox2D, BBox2D.greater a b = false ↔ a.score ≤ b.score := by
    intro a b
    simp [BBox2D.greater]
  refine ⟨?_, ?_, ?_, ?_, ?_, ?_, ?_, ?_⟩
  · intro a b
    exact hiff a b
  · intro a b c d hac hbd
    simp [BBox2D.greater, hac, hbd]
  · intro a
    exact (hfalse a a).mpr le_rfl
  · intro a b hab
    exact (hfalse b a).mpr (le_of_lt ((hiff a b).mp hab))
  · intro a b c hab hbc
    exact (hiff a c).mpr (lt_trans ((hiff b c).mp hbc) ((hiff a b).mp hab))
  · intro a b c hab hbc
    have h1 := (hfalse a b).mp hab.1
    have h2 := (hfalse b a).mp hab.2
    have h3 := (hfalse b c).mp hbc.1
    have h4 := (hfalse c b).mp hbc.2
    exact ⟨(hfalse a c).mpr (le_trans h1 h3), (hfalse c a).mpr (le_trans h4 h2)⟩
  · intro l hl
    exact hl.imp (fun {x y} h => (hfalse y x).mp h)
  · intro l
    have hsorted := stableSortDescending_pairwise BBox2D.score BBox2D.greater hiff l
    refine ⟨stableSortDescending_perm _ l, ?_, hsorted, ?_, ?_⟩
    · exact hsorted.imp (fun {x y} h => (hfalse y x).mpr h)
    · intro s
      apply stableSortDescending_filter
      intro a b hba hab
      have hlt := (hiff b a).mp hba
      have ha : a.score = s := by simpa using hab.1
      have hb : b.score = s := by simpa using hab.2
      omega
    · intro hidx
      exact stableSortDescending_ties BBox2D.score BBox2D.idx BBox2D.greater hiff l hidx

/-- Three candidates, two of them tied, sorted by `BBox2D::greater`: the
highest score comes first and the tied candidates keep their input order. -/
theorem greater_orders_by_score_descending_witness :
    stableSortDescending BBox2D.greater
        [⟨0, 0, 1, 1, 5, 0, 10⟩, ⟨0, 0, 1, 1, 9, 1, 11⟩, ⟨0, 0, 1, 1, 5, 2, 12⟩]
      = [⟨0, 0, 1, 1, 9, 1, 11⟩, ⟨0, 0, 1, 1, 5, 0, 10⟩, ⟨0, 0, 1, 1, 5, 2, 12⟩] ∧
    (stableSortDescending BBox2D.greater
        [⟨0, 0, 1, 1, 5, 0, 10⟩, ⟨0, 0, 1, 1, 9, 1, 11⟩, ⟨0, 0, 1, 1, 5, 2, 12⟩]).filter
        (fun x => decide (x.score = 5))
      = [(⟨0, 0, 1, 1, 5, 0, 10⟩ : BBox2D), ⟨0, 0, 1, 1, 9, 1, 11⟩,
          ⟨0, 0, 1, 1, 5, 2, 12⟩].filter (fun x => decide (x.score = 5)) :=
  ⟨by simp [stableSortDescending, insertDescending, BBox2D.greater],
   (greater_orders_by_score_descending.2.2.2.2.2.2.2
      [⟨0, 0, 1, 1, 5, 0, 10⟩, ⟨0, 0, 1, 1, 9, 1, 11⟩, ⟨0, 0, 1, 1, 5, 2, 12⟩]).2.2.2.1 5⟩

/-! ## Theorems: image-plane suppression -/

theorem iou_comm (a b : BBox) : iou a b = iou b a := by
  simp only [iou]
  rw [min_comm a.x2, max_comm a.x1, min_comm a.y2, max_comm a.y1, add_comm a.area]
  by_cases h : a.area = 0 ∨ b.area = 0
  · rw [if_pos h, if_pos h.symm]
  · rw [if_neg h, if_neg (fun h2 => h h2.symm)]

theorem nmsStep_eq (iou_th_ : CFloat) (kept : List BBox) (c : BBox) :
    nmsStep iou_th_ kept c
      = if ∀ k ∈ kept, iou c k < iou_th_ then kept ++ [c] else kept := by
  simp [nmsStep]

theorem nmsStep_pairwise (iou_th_ : CFloat) (kept : List BBox) (c : BBox)
    (h : kept.Pairwise (fun a b => iou b a < iou_th_)) :
    (nmsStep iou_th_ kept c).Pairwise (fun a b => iou b a < iou_th_) := by
  rw [nmsStep_eq]
  split
  · rename_i hall
    rw [List.pairwise_append]
    refine ⟨h, List.pairwise_singleton _ _, ?_⟩
    intro k hk b hb
    rw [List.mem_singleton] at hb
    subst hb
    exact hall k hk
  · exact h

theorem foldl_nmsStep_pairwise (iou_th_ : CFloat) (cs kept : List BBox)
    (h : kept.Pairwise (fun a b => iou b a < iou_th_)) :
    (cs.foldl (nmsStep iou_th_) kept).Pairwise (fun a b => iou b a < iou_th_) := by
  induction cs generalizing kept with
  | nil => exact h
  | cons c cs ih => exact ih _ (nmsStep_pairwise iou_th_ kept c h)

theorem foldl_nmsStep_appends (iou_th_ : CFloat) (cs kept : List BBox) :
    ∃ t : List BBox, t.Sublist cs ∧ cs.foldl (nmsStep iou_th_) kept = kept ++ t := by
  induction cs generalizing kept with
  | nil => exact ⟨[], List.Sublist.refl _, by simp⟩
  | cons c cs ih =>
    obtain ⟨t, ht, heq⟩ := ih (nmsStep iou_th_ kept c)
    rw [List.foldl_cons, heq, nmsStep_eq]
    split
    · exact ⟨c :: t, ht.cons₂ c, by simp⟩
    · exact ⟨t, ht.cons c, rfl⟩

/-- C2: with suppression enabled, every pair of distinct kept boxes of `Nms2D`
has intersection-over-union strictly below `iou_th_` (a zero-area box has IoU 0
with every box); the kept boxes are taken in score order; and when a candidate
is reached it is kept iff its overlap with every box kept before it is below
the threshold, a decision that the rest of the pass never revisits. -/
theorem nms2d_kept_pairwise_below_threshold (self : CenterNet3DOutputParser)
    (bboxes : List BBox) :
    (self.Nms2D bboxes true).Pairwise
      (fun a b => iou a b < self.iou_th_ ∧ iou b a < self.iou_th_) ∧
    (∀ a b : BBox, a.area = 0 ∨ b.area = 0 → iou a b = 0) ∧
    (self.Nms2D bboxes true).Sublist (stableSortDescending BBox.greater bboxes) ∧
    (stableSortDescending BBox.greater bboxes).Perm bboxes ∧
    (stableSortDescending BBox.greater bboxes).Pairwise (fun a b => a.score ≥ b.score) ∧
    ∀ (pre : List BBox) (c : BBox) (post : List BBox),
      stableSortDescending BBox.greater bboxes = pre ++ c :: post →
      (nmsGreedy self.iou_th_ (pre ++ [c])
          = if ∀ k ∈ nmsGreedy self.iou_th_ pre, iou c k < self.iou_th_
            then nmsGreedy self.iou_th_ pre ++ [c] else nmsGreedy self.iou_th_ pre) ∧
      ∃ t : List BBox, t.Sublist post ∧
        self.Nms2D bboxes true = nmsGreedy self.iou_th_ (pre ++ [c]) ++ t := by
  refine ⟨?_, ?_, ?_, stableSortDescending_perm _ _, ?_, ?_⟩
  · have h := foldl_nmsStep_pairwise self.iou_th_
      (stableSortDescending BBox.greater bboxes) [] List.Pairwise.nil
    simp only [CenterNet3DOutputParser.Nms2D, if_true, nmsGreedy]
    exact h.imp (fun {a b} hab => ⟨by rw [iou_comm]; exact hab, hab⟩)
  · intro a b hab
    simp [iou, hab]
  · obtain ⟨t, ht, heq⟩ := foldl_nmsStep_appends self.iou_th_
      (stableSortDescending BBox.greater bboxes) []
    simp only [CenterNet3DOutputParser.Nms2D, if_true, nmsGreedy]
    rw [heq, List.nil_append]
    exact ht
  · apply stableSortDescending_pairwise BBox.score BBox.greater
    intro a b
    simp [BBox.greater]
  · intro pre c post hsplit
    refine ⟨?_, ?_⟩
    · simp only [nmsGreedy, List.foldl_append, List.foldl_cons, List.foldl_nil]
      exact nmsStep_eq _ _ _
    · obtain ⟨t, ht, heq⟩ := foldl_nmsStep_appends self.iou_th_ post
        (nmsGreedy self.iou_th_ (pre ++ [c]))
      refine ⟨t, ht, ?_⟩
      rw [← heq]
      simp only [CenterNet3DOutputParser.Nms2D, if_true, nmsGreedy, hsplit,
        List.foldl_append, List.foldl_cons, List.foldl_nil]

/-- A default parser (threshold 0.5) on three candidates given out of score
order: the best box is kept, the box overlapping it with IoU 81/119 is
suppressed, the disjoint box is kept. -/
theorem nms2d_kept_pairwise_below_threshold_witness :
    (CenterNet3DOutputParser.ctor "cfg" ⟨0, 0, 0, 0, 0, 0, 0, 0⟩).Nms2D
        [{ x1 := 1, y1 := 1, x2 := 11, y2 := 11, score := 8 },
         { x1 := 20, y1 := 20, x2 := 30, y2 := 30, score := 7 },
         { x1 := 0, y1 := 0, x2 := 10, y2 := 10, score := 9 }] true
      = [{ x1 := 0, y1 := 0, x2 := 10, y2 := 10, score := 9 },
         { x1 := 20, y1 := 20, x2 := 30, y2 := 30, score := 7 }] ∧
    iou { x1 := 1, y1 := 1, x2 := 11, y2 := 11, score := 8 }
        { x1 := 0, y1 := 0, x2 := 10, y2 := 10, score := 9 } = 81 / 119 ∧
    ((CenterNet3DOutputParser.ctor "cfg" ⟨0, 0, 0, 0, 0, 0, 0, 0⟩).Nms2D
        [{ x1 := 1, y1 := 1, x2 := 11, y2 := 11, score := 8 },
         { x1 := 20, y1 := 20, x2 := 30, y2 := 30, score := 7 },
         { x1 := 0, y1 := 0, x2 := 10, y2 := 10, score := 9 }] true).Pairwise
      (fun a b =>
        iou a b < (CenterNet3DOutputParser.ctor "cfg" ⟨0, 0, 0, 0, 0, 0, 0, 0⟩).iou_th_ ∧
        iou b a < (CenterNet3DOutputParser.ctor "cfg" ⟨0, 0, 0, 0, 0, 0, 0, 0⟩).iou_th_) :=
  ⟨by norm_num [CenterNet3DOutputParser.Nms2D, CenterNet3DOutputParser.ctor, nmsGreedy,
      nmsStep, stableSortDescending, insertDescending, BBox.greater, iou, BBox.area,
      BBox.Width, BBox.Height],
    by norm_num [iou, BBox.area, BBox.Width, BBox.Height],
    (nms2d_kept_pairwise_below_threshold _ _).1⟩

/-! ## Theorems: the image publisher -/

theorem load_images_loop_eq (image_directory : String) (entries : List dirent)
    (images : List String) :
    load_images_loop image_directory entries images
      = images ++ (entries.filter
          (fun e => decide (e.d_name ≠ "." ∧ e.d_name ≠ ".." ∧ e.d_type = 8))).map
          (fun e => image_directory ++ e.d_name) := by
  induction entries generalizing images with
  | nil => simp [load_images_loop]
  | cons ptr rest ih =>
    unfold load_images_loop
    by_cases hdot : ptr.d_name = "." ∨ ptr.d_name = ".."
    · rw [if_pos hdot, ih]
      rcases hdot with h | h <;> simp [List.filter_cons, h]
    · rw [if_neg hdot]
      have h1 : ptr.d_name ≠ "." := fun h => hdot (Or.inl h)
      have h2 : ptr.d_name ≠ ".." := fun h => hdot (Or.inr h)
      by_cases h8 : ptr.d_type = 8
      · rw [if_pos h8, ih]
        simp [List.filter_cons, h1, h2, h8]
      · rw [if_neg h8]
        have hrest : (if ptr.d_type = 10 ∨ ptr.d_type = 4 then
              load_images_loop image_directory rest images
            else load_images_loop image_directory rest images)
            = load_images_loop image_directory rest images := by
          split <;> rfl
        rw [hrest, ih]
        simp [List.filter_cons, h8]

/-- C10: for every directory listing and every prior contents of `images`,
`load_images` keeps the prior elements and appends, in listing order, exactly
`image_directory ++ name` for each entry whose name is neither "." nor ".." and
whose `d_type` is 8; and when the directory cannot be opened the vector is
unchanged. -/
theorem load_images_appends_regular_files (image_directory : String)
    (images : List String) :
    (∀ entries : List dirent,
      load_images image_directory (some entries) images
        = images ++ (entries.filter
            (fun e => decide (e.d_name ≠ "." ∧ e.d_name ≠ ".." ∧ e.d_type = 8))).map
            (fun e => image_directory ++ e.d_name)) ∧
    load_images image_directory none images = images := by
  refine ⟨?_, rfl⟩
  intro entries
  exact load_images_loop_eq image_directory entries images

/-- A listing with the two dot entries, two regular files, a directory, a
symbolic link and an entry of unknown type, read into a vector that already
holds one path: the two regular files are appended in listing order. -/
theorem load_images_appends_regular_files_witness :
    load_images "d/" (some [⟨".", 4⟩, ⟨"..", 4⟩, ⟨"a.jpg", 8⟩, ⟨"sub", 4⟩, ⟨"ln", 10⟩,
        ⟨"b.png", 8⟩, ⟨"dev", 0⟩, ⟨".", 8⟩]) ["x"]
      = ["x", "d/a.jpg", "d/b.png"] ∧
    load_images "d/" none ["x"] = ["x"] :=
  ⟨((load_images_appends_regular_files "d/" ["x"]).1 _).trans (by decide),
    (load_images_appends_regular_files "d/" ["x"]).2⟩

theorem wrapInt32_of_natCast (n : Nat) (h : n ≤ 2147483647) : wrapInt32 (n : Int) = n := by
  unfold wrapInt32
  omega

theorem toUInt32_of_natCast (n : Nat) (h : n ≤ 2147483647) : toUInt32 (n : Int) = n := by
  unfold toUInt32
  omega

theorem toSizeT_of_natCast (n : Nat) (h : n ≤ 2147483647) : toSizeT (n : Int) = n := by
  unfold toSizeT
  omega

theorem tdiv_three_natCast (n : Nat) : Int.tdiv (n : Int) 3 = ((n / 3 : Nat) : Int) := by
  rw [Int.tdiv_eq_ediv (Int.ofNat_nonneg n) (by decide)]
  rfl

theorem length_memcpy (dst src : List Nat) (n : Nat) : (memcpy dst src n).length = dst.length := by
  simp [memcpy]

theorem length_vector_resize_nil (n : Nat) (value : Nat) :
    (vector_resize ([] : List Nat) n value).length = n := by
  simp [vector_resize]

/-- C9: for an NV12 matrix with `cols = W` and `rows = R` whose `int`
expressions `cols * rows` and `rows * 2` do not overflow, the message built by
`create_image` has encoding "nv12", width `W`, height `(R * 2) / 3` and
exactly `W * R` data bytes; when `R = 3 * H / 2` for an even `H`, the height is
`H` and the data length is `width * height * 3 / 2`. -/
theorem create_image_nv12_geometry (image : String) (nv_12 : Mat) (now : Int) (W R : Nat)
    (hcols : nv_12.cols = W) (hrows : nv_12.rows = R)
    (hW : W ≤ 2147483647) (hsize : W * R ≤ 2147483647) (hrows2 : R * 2 ≤ 2147483647) :
    (create_image image nv_12 now).encoding = "nv12" ∧
    (create_image image nv_12 now).width = W ∧
    (create_image image nv_12 now).height = (R * 2) / 3 ∧
    (create_image image nv_12 now).data.length = W * R ∧
    ∀ H : Nat, H % 2 = 0 → R = 3 * H / 2 →
      (create_image image nv_12 now).height = H ∧
      (create_image image nv_12 now).data.length
        = (create_image image nv_12 now).width * (create_image image nv_12 now).height * 3 / 2 := by
  have hwidth : (create_image image nv_12 now).width = W := by
    simp only [create_image, hcols]
    exact toUInt32_of_natCast W hW
  have hheight : (create_image image nv_12 now).height = (R * 2) / 3 := by
    simp only [create_image, hrows, mulInt32, divInt32]
    have h2 : ((R : Int) * 2) = ((R * 2 : Nat) : Int) := by push_cast; rfl
    rw [h2, wrapInt32_of_natCast _ hrows2, tdiv_three_natCast,
      wrapInt32_of_natCast _ (by omega), toUInt32_of_natCast _ (by omega)]
  have hlen : (create_image image nv_12 now).data.length = W * R := by
    simp only [create_image, hcols, hrows, mulInt32]
    have h2 : ((W : Int) * (R : Int)) = ((W * R : Nat) : Int) := by push_cast; rfl
    rw [h2, wrapInt32_of_natCast _ hsize, toSizeT_of_natCast _ hsize, length_memcpy]
    exact length_vector_resize_nil _ _
  refine ⟨rfl, hwidth, hheight, hlen, ?_⟩
  intro H heven hR
  have hH : R * 2 / 3 = H := by omega
  refine ⟨by rw [hheight, hH], ?_⟩
  rw [hlen, hwidth, hheight, hH]
  obtain ⟨k, rfl⟩ : ∃ k, H = 2 * k := ⟨H / 2, by omega⟩
  have hRk : R = 3 * k := by omega
  subst hRk
  have h3 : W * (2 * k) * 3 = W * (3 * k) * 2 := by ring
  rw [h3, Nat.mul_div_cancel _ (by decide : 0 < 2)]

/-- A 4 x 2 picture: its NV12 matrix has 4 columns and 3 rows; the message has
height 2 and 12 data bytes. -/
theorem create_image_nv12_geometry_witness :
    (create_image "a.jpg" ⟨3, 4, [1, 2, 3, 4, 5, 6, 7, 8, 9, 10, 11, 12]⟩ 0).encoding = "nv12" ∧
    (create_image "a.jpg" ⟨3, 4, [1, 2, 3, 4, 5, 6, 7, 8, 9, 10, 11, 12]⟩ 0).width = 4 ∧
    (create_image "a.jpg" ⟨3, 4, [1, 2, 3, 4, 5, 6, 7, 8, 9, 10, 11, 12]⟩ 0).height = 3 * 2 / 3 ∧
    (create_image "a.jpg" ⟨3, 4, [1, 2, 3, 4, 5, 6, 7, 8, 9, 10, 11, 12]⟩ 0).data.length
      = 4 * 3 ∧
    (create_image "a.jpg" ⟨3, 4, [1, 2, 3, 4, 5, 6, 7, 8, 9, 10, 11, 12]⟩ 0).data
      = [1, 2, 3, 4, 5, 6, 7, 8, 9, 10, 11, 12] :=
  ⟨(create_image_nv12_geometry "a.jpg" ⟨3, 4, [1, 2, 3, 4, 5, 6, 7, 8, 9, 10, 11, 12]⟩ 0 4 3
      rfl rfl (by decide) (by decide) (by decide)).1,
   (create_image_nv12_geometry "a.jpg" ⟨3, 4, [1, 2, 3, 4, 5, 6, 7, 8, 9, 10, 11, 12]⟩ 0 4 3
      rfl rfl (by decide) (by decide) (by decide)).2.1,
   (create_image_nv12_geometry "a.jpg" ⟨3, 4, [1, 2, 3, 4, 5, 6, 7, 8, 9, 10, 11, 12]⟩ 0 4 3
      rfl rfl (by decide) (by decide) (by decide)).2.2.1,
   (create_image_nv12_geometry "a.jpg" ⟨3, 4, [1, 2, 3, 4, 5, 6, 7, 8, 9, 10, 11, 12]⟩ 0 4 3
      rfl rfl (by decide) (by decide) (by decide)).2.2.2.1,
   by decide⟩

theorem duration_cast_ms_neg (d : Int) : duration_cast_ms (-d) = -duration_cast_ms d := by
  simp [duration_cast_ms]

theorem duration_cast_ms_nonneg (d : Int) (h : 0 ≤ d) : 0 ≤ duration_cast_ms d :=
  Int.tdiv_nonneg h (by decide)

theorem sleep_request_of_le (last_pub now : Int) (h : last_pub ≤ now) :
    sleep_request last_pub now = some (33 + duration_cast_ms (now - last_pub)) := by
  have hneg : last_pub - now = -(now - last_pub) := by omega
  have h0 := duration_cast_ms_nonneg (now - last_pub) (by omega)
  simp only [sleep_request]
  rw [hneg, duration_cast_ms_neg]
  rw [if_pos (by omega)]
  congr 1
  omega

theorem pub_loop_trace (start : Int) (env : Nat → IterEnv) (hclock : MonotoneClock start env)
    (images : List String) (i : Nat) :
    pub_loop env i (last_pub_at start env i) images
      = (images.enumFrom i).flatMap (fun p =>
          [PubEvent.sleep_for
              (33 + duration_cast_ms ((env p.1).now_check - last_pub_at start env p.1)),
            PubEvent.publish (create_image p.2 (env p.1).nv_12 (env p.1).stamp)]) := by
  induction images generalizing i with
  | nil => simp [pub_loop]
  | cons image rest ih =>
    have hnext : (env i).now_pub = last_pub_at start env (i + 1) := rfl
    simp only [pub_loop, sleep_request_of_le _ _ (hclock i).1, hnext, ih (i + 1)]
    simp [List.enumFrom_cons, List.flatMap_cons]

/-- C8, as amended: for clock readings `last_pub ≤ now`, `duration_ms` is at
most 0, the test `duration_ms < 33` succeeds, and the requested sleep
`33 - duration_ms` is 33 ms plus the whole milliseconds elapsed, hence at least
33 ms; it equals the remainder of the 33 ms period, 33 ms minus the elapsed
milliseconds, exactly when less than one millisecond has elapsed, where both
are 33 ms; so under a clock that never goes backwards `pub_images` sleeps that
long before publishing each image and never skips the sleep. -/
theorem pub_images_sleeps_past_period (last_pub now : Int) (h : last_pub ≤ now) :
    duration_cast_ms (last_pub - now) ≤ 0 ∧
    duration_cast_ms (last_pub - now) < 33 ∧
    sleep_request last_pub now = some (33 - duration_cast_ms (last_pub - now)) ∧
    33 - duration_cast_ms (last_pub - now) = 33 + duration_cast_ms (now - last_pub) ∧
    33 ≤ 33 - duration_cast_ms (last_pub - now) ∧
    sleep_request last_pub now ≠ none ∧
    (sleep_request last_pub now = some (33 - duration_cast_ms (now - last_pub)) ↔
      now - last_pub < 1000000) ∧
    ∀ (image_directory : String) (dir : Option (List dirent)) (start : Int)
      (env : Nat → IterEnv), MonotoneClock start env →
      pub_images image_directory dir start env
        = (load_images image_directory dir []).enum.flatMap (fun p =>
            [PubEvent.sleep_for
                (33 + duration_cast_ms ((env p.1).now_check - last_pub_at start env p.1)),
              PubEvent.publish (create_image p.2 (env p.1).nv_12 (env p.1).stamp)]) := by
  have hneg : last_pub - now = -(now - last_pub) := by omega
  have h0 := duration_cast_ms_nonneg (now - last_pub) (by omega)
  have hd : duration_cast_ms (last_pub - now) = -duration_cast_ms (now - last_pub) := by
    rw [hneg, duration_cast_ms_neg]
  have hreq := sleep_request_of_le last_pub now h
  refine ⟨by omega, by omega, ?_, by omega, by omega, ?_, ?_, ?_⟩
  · rw [hreq, hd]
    congr 1
    omega
  · rw [hreq]
    exact Option.some_ne_none _
  · have hdiv : duration_cast_ms (now - last_pub) = (now - last_pub) / 1000000 :=
      Int.tdiv_eq_ediv (by omega) (by decide)
    rw [hreq]
    constructor
    · intro heq
      have := Option.some.inj heq
      omega
    · intro hlt
      congr 1
      omega
  · intro image_directory dir start env hclock
    exact pub_loop_trace start env hclock _ 0

/-- Fifty milliseconds after the last publish the loop asks for a sleep of
83 ms; and a run over two files under a clock that advances sleeps 43 ms and
50 ms before the two publishes. -/
theorem pub_images_sleeps_past_period_witness :
    (0 : Int) ≤ 50000000 ∧
    sleep_request 0 50000000 = some (33 - duration_cast_ms (0 - 50000000)) ∧
    sleep_request 0 50000000 = some 83 ∧
    MonotoneClock 0
        (fun i => ⟨⟨3, 2, [1, 2, 3, 4, 5, 6]⟩, 7, 100000000 * i + 10000000,
          100000000 * i + 93000000⟩) ∧
    pub_images "d/" (some [⟨"a.jpg", 8⟩, ⟨"b.jpg", 8⟩]) 0
        (fun i => ⟨⟨3, 2, [1, 2, 3, 4, 5, 6]⟩, 7, 100000000 * i + 10000000,
          100000000 * i + 93000000⟩)
      = [PubEvent.sleep_for 43,
         PubEvent.publish ⟨⟨7, "d/a.jpg"⟩, 2, 2, "nv12", 0, 0, [1, 2, 3, 4, 5, 6]⟩,
         PubEvent.sleep_for 50,
         PubEvent.publish ⟨⟨7, "d/b.jpg"⟩, 2, 2, "nv12", 0, 0, [1, 2, 3, 4, 5, 6]⟩] :=
  have hclock : MonotoneClock 0
      (fun i => ⟨⟨3, 2, [1, 2, 3, 4, 5, 6]⟩, 7, 100000000 * i + 10000000,
        100000000 * i + 93000000⟩) := by
    intro i
    cases i with
    | zero => simp [last_pub_at]
    | succ k =>
      simp only [last_pub_at]
      push_cast
      constructor <;> omega
  ⟨by decide, (pub_images_sleeps_past_period 0 50000000 (by decide)).2.2.1, by decide,
    hclock,
    ((pub_images_sleeps_past_period 0 50000000 (by decide)).2.2.2.2.2.2.2 "d/"
      (some [⟨"a.jpg", 8⟩, ⟨"b.jpg", 8⟩]) 0 _ hclock).trans (by decide)⟩

/-- C8 as first stated fails: with 999999 ns elapsed since the last publish the
elapsed time is 0 ms, and the requested sleep of 33 ms is the remainder of the
33 ms period; so "never for the remainder" does not hold for every
`last_pub ≤ now`. The same happens when no time has elapsed at all. -/
theorem pub_images_remainder_counterexample :
    (0 : Int) ≤ 999999 ∧
    duration_cast_ms (999999 - 0) = 0 ∧
    sleep_request 0 999999 = some 33 ∧
    sleep_request 0 999999 = some (33 - duration_cast_ms (999999 - 0)) ∧
    sleep_request 0 0 = some (33 - duration_cast_ms (0 - 0)) ∧
    ¬ (∀ last_pub now : Int, last_pub ≤ now →
        sleep_request last_pub now ≠ some (33 - duration_cast_ms (now - last_pub))) :=
  ⟨by decide, by decide, by decide, by decide, by decide,
    fun hall => hall 0 999999 (by decide) (by decide)⟩

end Mono3D
